import Mathlib

/-!
Verification of the MscCompSci-Final-Project data pipelines.

The development shallowly embeds the core of the repository:
* the Leeds footfall schema normalizer
  (`prefect-deployments/footfall_leeds/footfall_leeds.py`:
  `create_preferred_column`, `clean_hours`, `clean_df`,
  `load_df_to_bigquery`),
* the weather historic pipeline
  (`prefect-deployments/api_pipelines/historic.py`:
  `process_to_df`, `update_tablename`, `update_historic_table`),
* the pipeline executor loop (`run_pipeline` in both files), and
* the data-bus dictionary threaded through the stages.

Dataframes are modelled as a column list plus rows of named cells
(a cell is `Option String`; `none` models a pandas NaN/NaT).  External
collaborators (HTTP fetch, `pd.read_csv`, `pd.to_datetime`,
`datetime.strftime`) are function parameters of the embeddings.
-/

/-- Python exception classes observable from the embedded code.
`attributeError`, `typeError` and `keyError` are the exceptions the
embedded code can actually raise.  `timeParseError` and
`unresolvableSchemaError` are the error classes named by the design
documentation; the repository defines and raises neither, and the
constructors exist only so that statements about them can be written. -/
inductive PyExc where
  | attributeError
  | typeError
  | keyError
  | timeParseError
  | unresolvableSchemaError
deriving DecidableEq

/-- Decidable equality for `Except`, so that concrete results of the
embedded fallible functions can be checked by `decide`. -/
instance {ε α : Type} [DecidableEq ε] [DecidableEq α] : DecidableEq (Except ε α) := fun x y =>
  match x, y with
  | .ok a, .ok b =>
    if h : a = b then isTrue (by rw [h]) else isFalse (fun hh => by cases hh; exact h rfl)
  | .error a, .error b =>
    if h : a = b then isTrue (by rw [h]) else isFalse (fun hh => by cases hh; exact h rfl)
  | .ok _, .error _ => isFalse (fun hh => by cases hh)
  | .error _, .ok _ => isFalse (fun hh => by cases hh)

/-! ## String helpers (models of the Python `str` operations used) -/

/-- Model of `str.lower` (ASCII as used by the sources). -/
def lowerStr (s : String) : String := String.mk (s.toList.map Char.toLower)

/-- Does the character list start with the given needle? -/
def startsWithL : List Char → List Char → Bool
  | _, [] => true
  | [], _ :: _ => false
  | a :: as, b :: bs => a == b && startsWithL as bs

/-- Does the haystack contain the needle as a contiguous sublist?
Model of Python's `in` test on strings as used by
`df.columns.str.contains`. -/
def hasSubL : List Char → List Char → Bool
  | [], needle => needle.isEmpty
  | a :: as, needle => startsWithL (a :: as) needle || hasSubL as needle

/-- Substring test on strings. -/
def containsSubstring (s pat : String) : Bool := hasSubL s.toList pat.toList

/-- Core of `str.replace`: replace non-overlapping occurrences of the
(nonempty) needle `n0 :: nrest` left to right.  The fuel argument only
makes the recursion structural; every call supplies the haystack length,
which the recursion never exceeds since each step consumes at least one
character. -/
def replaceCore (n0 : Char) (nrest : List Char) (repl : List Char) : Nat → List Char → List Char
  | _, [] => []
  | 0, l => l
  | fuel + 1, a :: as =>
    if startsWithL (a :: as) (n0 :: nrest) then
      repl ++ replaceCore n0 nrest repl fuel (as.drop nrest.length)
    else
      a :: replaceCore n0 nrest repl fuel as

/-- Model of Python `str.replace(needle, repl)`.  (The sources only call
it with nonempty needles; for an empty needle we return the string
unchanged.) -/
def strReplace (s needle repl : String) : String :=
  match needle.toList with
  | [] => s
  | n0 :: nrest => String.mk (replaceCore n0 nrest repl.toList s.toList.length s.toList)

/-- Characters of the last `/`-separated segment; model of
`url.split('/')[-1]`. -/
def lastSegL : List Char → List Char → List Char
  | [], acc => acc.reverse
  | c :: cs, acc => if c == '/' then lastSegL cs [] else lastSegL cs (c :: acc)

/-- Model of `url.split('/')[-1]`. -/
def lastSegment (s : String) : String := String.mk (lastSegL s.toList [])

/-- Model of `str.rjust(w, '0')`. -/
def padZero (w : Nat) (s : String) : String :=
  String.mk (List.replicate (w - s.toList.length) '0') ++ s

/-! ## Dataframe model -/

/-- One dataframe cell; `none` models pandas NaN/NaT. -/
abbrev Cell := Option String

/-- One dataframe row: cells named by their column. -/
abbrev Row := List (String × Cell)

/-- A pandas dataframe: its column index plus its rows. -/
structure DF where
  cols : List String
  rows : List Row
deriving DecidableEq

/-- Well-formedness: every row carries exactly the dataframe's columns,
in order (as in pandas, where rows are aligned to one column index). -/
def DF.WF (df : DF) : Prop := ∀ r ∈ df.rows, r.map Prod.fst = df.cols

instance (df : DF) : Decidable df.WF := by
  unfold DF.WF
  infer_instance

/-- The cell of a row at a column (`none` when the column is absent). -/
def cellOf (r : Row) (c : String) : Cell := (List.lookup c r).getD none

/-- Overwrite the value of column `c` inside one row. -/
def replaceEntry (r : Row) (c : String) (v : Cell) : Row :=
  r.map (fun p => if p.1 = c then (c, v) else p)

/-- Per-row effect of `df[c] = vals`: overwrite when the column exists,
otherwise append it. -/
def rowSetCol (cols : List String) (r : Row) (c : String) (v : Cell) : Row :=
  if c ∈ cols then replaceEntry r c v else r ++ [(c, v)]

/-- Column list after `df[c] = vals`. -/
def colsA (cols : List String) (c : String) : List String :=
  if c ∈ cols then cols else cols ++ [c]

/-- Model of the pandas column assignment `df[c] = vals` (`vals` aligned
positionally with the rows, as the sources always assign a column of the
same frame). -/
def DF.setCol (df : DF) (c : String) (vals : List Cell) : DF :=
  ⟨colsA df.cols c, List.zipWith (fun r v => rowSetCol df.cols r c v) df.rows vals⟩

/-- The cells of column `c`, top to bottom; model of `df[c]`. -/
def DF.colCells (df : DF) (c : String) : List Cell := df.rows.map (fun r => cellOf r c)

/-! ## Leeds footfall normalizer
(`footfall_leeds.py`, `create_preferred_column`, `clean_hours`,
`clean_df`, `load_df_to_bigquery`). -/

/-- Should a column survive
`df.drop(df.columns[df.columns.str.contains('unnamed', case=False)], axis=1)`? -/
def keepCol (c : String) : Bool := !(containsSubstring (lowerStr c) "unnamed")

/-- The unnamed-column drop at the top of `clean_df`. -/
def dropUnnamedCols (df : DF) : DF :=
  ⟨df.cols.filter keepCol, df.rows.map (fun r => r.filter (fun p => keepCol p.1))⟩

/-- First candidate of the preference list present among the columns;
model of the `for source in prefered_columns: if source in list(df.columns)`
scan. -/
def findFirstCol (cols : List String) : List String → Option String
  | [] => none
  | p :: ps => if p ∈ cols then some p else findFirstCol cols ps

/-- `create_preferred_column(df, prefered_columns, new_column)`
(`footfall_leeds.py` lines 95-116).  The input is `none` when the Python
caller passed in the `False` that a previous call returned: iterating the
preference list then evaluates `list(False.columns)` and raises
`AttributeError` (unless the list is empty, in which case the loop body
never runs and `False` is returned again).  On a dataframe the first
matching candidate's cells are copied to `new_column`; with no match the
function returns `False` (modelled `none`), not an error. -/
def create_preferred_column (df? : Option DF) (prefCols : List String) (newCol : String) :
    Except PyExc (Option DF) :=
  match df? with
  | none => if prefCols.isEmpty then .ok none else .error .attributeError
  | some df =>
    match findFirstCol df.cols prefCols with
    | some p => .ok (some (df.setCol newCol (df.colCells p)))
    | none => .ok none

/-- Is `c` a separator the hour regex accepts after the digits? -/
def isSepChar (c : Char) : Bool := c == '.' || c == ':'

/-- The group captured by `re.search(r"^([0-9]{1,2})(?:\.|\:|$)", x)`:
one or two leading digits that must be followed by end-of-string, `.` or
`:` (with the regex's greedy-then-backtrack behaviour), or `none` when
the search fails. -/
def hourDigits : List Char → Option (List Char)
  | [] => none
  | c0 :: rest =>
    if c0.isDigit then
      match rest with
      | [] => some [c0]
      | c1 :: rest2 =>
        if c1.isDigit then
          match rest2 with
          | [] => some [c0, c1]
          | c2 :: _ => if isSepChar c2 then some [c0, c1] else none
        else if isSepChar c1 then some [c0] else none
    else none

/-- Model of `str.rjust(2, '0')` on the captured digit group. -/
def rjust2 (l : List Char) : List Char := List.replicate (2 - l.length) '0' ++ l

/-- `clean_hours(x)` (`footfall_leeds.py` lines 119-134).  When the
regex search fails, `re.search(...)` is `None` and `.group(1)` raises
`AttributeError`. -/
def clean_hours (x : String) : Except PyExc String :=
  match hourDigits x.toList with
  | some ds => .ok (String.mk (rjust2 ds) ++ ":00:00")
  | none => .error .attributeError

/-- The string Python's `str()` shows a cell to `clean_hours` as: the
value itself, or `"nan"` for a missing cell. -/
def strOfCell : Cell → String
  | some s => s
  | none => "nan"

/-- Elementwise application of a fallible function, propagating the
first error: the model of a pandas columnwise `.apply`/conversion, which
raises out of the whole operation as soon as one element raises. -/
def mapExcept {e a b : Type} (f : a → Except e b) : List a → Except e (List b)
  | [] => .ok []
  | x :: l => do
    let y ← f x
    let ys ← mapExcept f l
    pure (y :: ys)

/-- Lift a fallible string function over a cell the way pandas datetime
conversions act: a missing value stays missing (NaT), a present value is
converted and any conversion error propagates. -/
def liftCell (f : String → Except PyExc String) : Cell → Except PyExc Cell
  | some s => do
      let v ← f s
      pure (some v)
  | none => pure none

/-- Does the row have a non-missing `Hour` cell?  Predicate of the
`df.dropna(subset=['Hour'])` step. -/
def hourPresent (r : Row) : Bool := (cellOf r "Hour").isSome

/-- Does the row have no missing cell at all?  Predicate of the final
`df.dropna()` step. -/
def rowComplete (r : Row) : Bool := r.all (fun p => p.2.isSome)

/-- Model of the column selection `df[cs]`. -/
def selectCols (df : DF) (cs : List String) : DF :=
  ⟨cs, df.rows.map (fun r => cs.map (fun c => (c, cellOf r c)))⟩

/-- The middle of `clean_df` (lines 165-174): clean the hour column,
parse the date column, build the timestamp column, add the city column.
`toDT` models `pd.to_datetime(_, infer_datetime_format=True)`, `fmtD`
models `datetime.strftime('%d/%m/%Y')` and `toDT2` models
`pd.to_datetime(_, format='%d/%m/%Y %H:%M:%S')`, all acting on the
non-missing cells. -/
def transform_block (toDT : String → Except PyExc String) (fmtD : String → String)
    (toDT2 : String → Except PyExc String) (df3 : DF) : Except PyExc DF := do
  let hourVals ← mapExcept (fun r => do
    let v ← clean_hours (strOfCell (cellOf r "Hour"))
    pure (some v : Cell)) df3.rows
  let df4 := df3.setCol "Hour" hourVals
  if "Date" ∈ df4.cols then
    let dateVals ← mapExcept (fun r => liftCell toDT (cellOf r "Date")) df4.rows
    let df5 := df4.setCol "Date" dateVals
    let tsRaw := df5.rows.map (fun r =>
      match cellOf r "Date", cellOf r "Hour" with
      | some d, some h => some (fmtD d ++ " " ++ h)
      | _, _ => (none : Cell))
    let tsVals ← mapExcept (liftCell toDT2) tsRaw
    let df6 := df5.setCol "timestamp" tsVals
    let df7 := df6.setCol "city" (df6.rows.map (fun _ => (some "Leeds" : Cell)))
    pure df7
  else .error .keyError

/-- `clean_df` (`footfall_leeds.py` lines 137-180) at the dataframe
level: drop unnamed columns, resolve the `total_footfall` and
`footfall_location` columns by preference lists, drop rows with a
missing `Hour`, canonicalize hours, build the timestamp, drop incomplete
rows, and keep the four canonical columns.  Subscripting the `False`
that `create_preferred_column` returns on failure raises `TypeError`
(`df['Hour']` on a `bool`), and `df['Hour']` / `df['Date']` on a frame
lacking that column raises `KeyError`. -/
def clean_df (toDT : String → Except PyExc String) (fmtD : String → String)
    (toDT2 : String → Except PyExc String) (footPrefCols locPrefCols : List String)
    (df : DF) : Except PyExc DF := do
  let df0 := dropUnnamedCols df
  let df1? ← create_preferred_column (some df0) footPrefCols "total_footfall"
  let df2? ← create_preferred_column df1? locPrefCols "footfall_location"
  match df2? with
  | none => .error .typeError
  | some df2 =>
    if "Hour" ∈ df2.cols then
      let df3 : DF := ⟨df2.cols, df2.rows.filter hourPresent⟩
      let df7 ← transform_block toDT fmtD toDT2 df3
      let df8 : DF := ⟨df7.cols, df7.rows.filter rowComplete⟩
      pure (selectCols df8 ["city", "footfall_location", "timestamp", "total_footfall"])
    else .error .keyError

/-- Worker for `pdDropDuplicates`.  The fuel argument only makes the
recursion structural; every call supplies the list length, which the
recursion never exceeds. -/
def pddAux {α : Type} [DecidableEq α] : Nat → List α → List α
  | _, [] => []
  | 0, l => l
  | fuel + 1, a :: rest => a :: pddAux fuel (rest.filter (fun x => decide (x ≠ a)))

/-- `drop_duplicates()` with pandas' default `keep='first'`: keep the
first occurrence of every row value. -/
def pdDropDuplicates {α : Type} [DecidableEq α] (l : List α) : List α :=
  pddAux l.length l

/-- The dataframe assembled by the Leeds `load_df_to_bigquery`
(lines 200-227) before upload: `pd.concat(data_bus['dfs'].values(),
ignore_index=True)` followed by `drop_duplicates()`, at the row level
(the cleaned frames all carry the same four columns). -/
def leeds_upload_rows (dfs : List (String × DF)) : List Row :=
  pdDropDuplicates ((dfs.map (fun p => p.2.rows)).flatten)

/-- The `(city, footfall_location, timestamp)` composite key of a
cleaned footfall row. -/
def fkey (r : Row) : Cell × Cell × Cell :=
  (cellOf r "city", cellOf r "footfall_location", cellOf r "timestamp")

/-! ## Weather historic pipeline (`historic.py`) -/

/-- One hourly record of the raw API response (`hour` in
`process_to_df`): the fields the transform reads.  `rain`/`snow` are
`some v` when the `'rain'`/`'snow'` key is present (carrying its `'1h'`
value) and `none` when absent. -/
structure HourRec where
  dt : Nat
  temp : Rat
  pressure : Rat
  humidity : Rat
  clouds : Rat
  wind : Rat
  rain : Option Rat
  snow : Option Rat
deriving DecidableEq

/-- One row of the historic weather dataframe built by `process_to_df`
(`historic.py` lines 61-88).  `date` keeps the epoch timestamp that
`datetime.fromtimestamp` converts. -/
structure WRow where
  city : String
  date : Nat
  temp : Rat
  pressure : Rat
  humidity : Rat
  clouds : Rat
  wind : Rat
  rain : Rat
  snow : Rat
deriving DecidableEq

/-- The row `process_to_df` builds for one city and one hour record.
`pyRound` is a parameter modelling Python's `round(x, 1)` on the float
temperature. -/
def mkWRow (pyRound : Rat → Rat) (city : String) (h : HourRec) : WRow :=
  { city := city
    date := h.dt
    temp := pyRound (h.temp - 27315 / 100)
    pressure := h.pressure
    humidity := h.humidity
    clouds := h.clouds
    wind := h.wind
    rain := match h.rain with | some v => v | none => 0
    snow := match h.snow with | some v => v | none => 0 }

/-- `process_to_df` (`historic.py` lines 61-88): one output row per
city per hour record, in iteration order. -/
def process_to_df (pyRound : Rat → Rat) (resp : List (String × List HourRec)) : List WRow :=
  (resp.map (fun p => p.2.map (mkWRow pyRound p.1))).flatten

/-- The join condition of the merge query in `update_historic_table`:
`historic.city = latest.city AND historic.date = latest.date`. -/
def sameWKey (s h : WRow) : Bool := s.city == h.city && s.date == h.date

/-- The `(city, date)` composite key of a historic row. -/
def wkey (r : WRow) : String × Nat := (r.city, r.date)

/-- The merge computed by the SQL of `update_historic_table`
(`historic.py` lines 129-142): every row of the freshly loaded shard,
followed by every row of the current historic store whose `(city, date)`
key matches no shard row (the `LEFT JOIN ... WHERE latest.date IS NULL`
anti-join); the result replaces the historic store
(`write_disposition='WRITE_TRUNCATE'`). -/
def update_historic_merge (shard store : List WRow) : List WRow :=
  shard ++ store.filter (fun h => !(shard.any (fun s => sameWKey s h)))

/-! ## Pipeline executor
The loop `for stage in pipeline_stages: data_bus = stage(data_bus)` of
`run_pipeline` (`historic.py` lines 179-180, `footfall_leeds.py` lines
247-248).  A stage takes the state (data bus plus external world) and
either returns the new state or raises, leaving the error together with
the state as mutated so far — Python performs no rollback on raise. -/

def run_stages {S E : Type} : List (S → Except (E × S) S) → S → Except (E × S) S
  | [], s => .ok s
  | f :: rest, s =>
    match f s with
    | .error es => .error es
    | .ok s2 => run_stages rest s2

/-! ## Data bus -/

/-- The kinds of values the embedded stages keep on the data bus. -/
inductive PyObj where
  | str (s : String)
  | pydate (y m d : Nat)
  | pybool (b : Bool)
  | strList (l : List String)
  | dfDict (d : List (String × DF))
deriving DecidableEq

/-- The data bus: the Python `dict` threaded through the stages. -/
abbrev Bus := List (String × PyObj)

/-- `data_bus[k]`: `KeyError` when the key is absent. -/
def busGet (b : Bus) (k : String) : Except PyExc PyObj :=
  match List.lookup k b with
  | some v => .ok v
  | none => .error .keyError

/-- Association-list update: overwrite an existing key, else append. -/
def assocSet {β : Type} (l : List (String × β)) (k : String) (v : β) : List (String × β) :=
  if (List.lookup k l).isSome then l.map (fun p => if p.1 = k then (k, v) else p)
  else l ++ [(k, v)]

/-- `data_bus[k] = v`: always succeeds, overwriting any existing value. -/
def busSet (b : Bus) (k : String) (v : PyObj) : Bus := assocSet b k v

/-- `date.strftime('%Y%m%d')`. -/
def fmtYMD (y m d : Nat) : String :=
  padZero 4 (toString y) ++ padZero 2 (toString m) ++ padZero 2 (toString d)

/-- `update_tablename` (`historic.py` lines 91-111): append the
`_yyyymmdd` suffix to `bq_tablename`.  A non-date under `'date'` makes
`.strftime` raise `AttributeError`; a non-string under `'bq_tablename'`
makes the `+` raise `TypeError`. -/
def update_tablename (bus : Bus) : Except PyExc Bus := do
  let dv ← busGet bus "date"
  match dv with
  | .pydate y m d =>
    let tv ← busGet bus "bq_tablename"
    match tv with
    | .str t => pure (busSet bus "bq_tablename" (.str (t ++ "_" ++ fmtYMD y m d)))
    | _ => .error .typeError
  | _ => .error .attributeError

/-- One file entry of the DataMillNorth API response
(`api_response['resources'].items()` values). -/
structure FileEntry where
  format : String
  url : String
deriving DecidableEq

/-- The body of `download_data`'s loop for one `(key, file)` resource:
keep CSV files not in the exclusion list, name them from the last URL
segment with `%20` replaced by `_`, and record the frame read from the
substituted download URL. -/
def dd_step (downloadUrl : String) (exclude : List String) (readCsv : String → DF)
    (st : List String × List (String × DF)) (entry : String × FileEntry) :
    List String × List (String × DF) :=
  if entry.2.format == "csv" then
    let fname := lastSegment entry.2.url
    let url := strReplace (strReplace downloadUrl "{{key}}" entry.1) "{{file_name}}" fname
    if fname ∈ exclude then st
    else
      let fname2 := strReplace fname "%20" "_"
      (st.1 ++ [fname2], assocSet st.2 fname2 (readCsv url))
  else st

/-- `download_data` (`footfall_leeds.py` lines 24-58).  `resources`
models the decoded `r.json()['resources'].items()` and `readCsv` models
`pd.read_csv`.  The configuration values are read off the bus (the
source reads `download_url` and `exclude_files` inside the loop; on the
success path the behaviour is the same) and the stage records
`file_list`, `dfs` and `dfs_raw`. -/
def download_data (resources : List (String × FileEntry)) (readCsv : String → DF)
    (bus : Bus) : Except PyExc Bus := do
  let au ← busGet bus "api_url"
  match au with
  | .str _ =>
    let du ← busGet bus "download_url"
    match du with
    | .str downloadUrl =>
      let ex ← busGet bus "exclude_files"
      match ex with
      | .strList exclude =>
        let res := resources.foldl (dd_step downloadUrl exclude readCsv) ([], [])
        pure (busSet (busSet (busSet bus "file_list" (.strList res.1)) "dfs"
          (.dfDict res.2)) "dfs_raw" (.pybool true))
      | _ => .error .typeError
    | _ => .error .attributeError
  | _ => .error .typeError

/-! ## Spec-side definitions
These two follow the wording of the design documentation, for comparison
with the embedded `clean_hours`. -/

/-- Modelled from the spec: a token whose string form begins with one or
two digits followed by end-of-string, a decimal point, or a colon. -/
def specHourTokenOk (s : String) : Bool :=
  match s.toList with
  | [] => false
  | c0 :: rest =>
    c0.isDigit &&
      (match rest with
       | [] => true
       | c1 :: rest2 =>
         (c1 == '.' || c1 == ':') ||
           (c1.isDigit && (match rest2 with
             | [] => true
             | c2 :: _ => c2 == '.' || c2 == ':')))

/-- Modelled from the spec: the leading digits zero-padded to two
characters with `":00:00"` appended. -/
def specHourCanon (s : String) : String :=
  String.mk (List.replicate (2 - (s.toList.takeWhile Char.isDigit).length) '0' ++
    s.toList.takeWhile Char.isDigit) ++ ":00:00"

/-! ## Lemmas about the shard merge -/

/-- The SQL join condition holds exactly when the composite keys agree. -/
theorem sameWKey_iff (s h : WRow) : sameWKey s h = true ↔ wkey s = wkey h := by
  simp [sameWKey, wkey, Prod.ext_iff]

/-- A shard row matches `r` by key exactly when `r`'s key occurs among
the shard keys. -/
theorem any_sameWKey (shard : List WRow) (r : WRow) :
    (shard.any (fun s => sameWKey s r)) = true ↔ wkey r ∈ shard.map wkey := by
  simp [List.any_eq_true, List.mem_map, sameWKey_iff]

/-- Membership in the merged store. -/
theorem mem_update_historic_merge (shard store : List WRow) (r : WRow) :
    r ∈ update_historic_merge shard store ↔
      (r ∈ shard ∨ (r ∈ store ∧ wkey r ∉ shard.map wkey)) := by
  simp only [update_historic_merge, List.mem_append, List.mem_filter, Bool.not_eq_true',
    ← Bool.not_eq_true, any_sameWKey]

/-- C1: merging a unique-keyed shard into a unique-keyed historical
store yields exactly one record per `(city, date)` key: the shard's
record for every shard key, the store's record for every other stored
key, and nothing else.  (The store-side uniqueness hypothesis is the
Historical Store invariant of the data model: the composite key is
unique in the store after any merge, and this theorem shows the merge
re-establishes it.) -/
theorem update_historic_merge_unique (shard store : List WRow)
    (hs : (shard.map wkey).Nodup) (hh : (store.map wkey).Nodup) :
    ((update_historic_merge shard store).map wkey).Nodup ∧
    ∀ r : WRow, r ∈ update_historic_merge shard store ↔
      (r ∈ shard ∨ (r ∈ store ∧ wkey r ∉ shard.map wkey)) := by
  constructor
  · rw [update_historic_merge, List.map_append, List.nodup_append]
    refine ⟨hs, ?_, ?_⟩
    · exact hh.sublist ((List.filter_sublist store).map wkey)
    · intro k hk1 hk2
      obtain ⟨h, hmem, hkey⟩ := List.mem_map.mp hk2
      have := (List.mem_filter.mp hmem).2
      rw [Bool.not_eq_true', ← Bool.not_eq_true] at this
      exact this ((any_sameWKey shard h).mpr (hkey ▸ hk1))
  · exact mem_update_historic_merge shard store

/-- C1 witness at a concrete shard and store: key `("X", 5)` is present
in both with different values and the shard's record wins, key
`("Y", 6)` is only in the store and survives. -/
theorem update_historic_merge_unique_witness :
    (([⟨"X", 5, 1, 2, 3, 4, 5, 6, 7⟩] : List WRow).map wkey).Nodup ∧
    (([⟨"X", 5, 9, 9, 9, 9, 9, 9, 9⟩, ⟨"Y", 6, 1, 1, 1, 1, 1, 1, 1⟩] : List WRow).map wkey).Nodup ∧
    (((update_historic_merge [⟨"X", 5, 1, 2, 3, 4, 5, 6, 7⟩]
      [⟨"X", 5, 9, 9, 9, 9, 9, 9, 9⟩, ⟨"Y", 6, 1, 1, 1, 1, 1, 1, 1⟩]).map wkey).Nodup ∧
      ((⟨"X", 5, 1, 2, 3, 4, 5, 6, 7⟩ : WRow) ∈ update_historic_merge [⟨"X", 5, 1, 2, 3, 4, 5, 6, 7⟩]
        [⟨"X", 5, 9, 9, 9, 9, 9, 9, 9⟩, ⟨"Y", 6, 1, 1, 1, 1, 1, 1, 1⟩] ↔ True)) := by
  refine ⟨by decide, by decide, ?_, ?_⟩
  · exact (update_historic_merge_unique _ _ (by decide) (by decide)).1
  · rw [(update_historic_merge_unique _ _ (by decide) (by decide)).2]
    simp

/-- C2: re-merging the same shard is idempotent: the merged store is
unchanged by a second merge of the same shard, with no hypotheses at
all (even duplicate shard keys cannot break this). -/
theorem update_historic_merge_idem (shard store : List WRow) :
    update_historic_merge shard (update_historic_merge shard store) =
      update_historic_merge shard store := by
  unfold update_historic_merge
  rw [List.filter_append]
  have h1 : shard.filter (fun h => !(shard.any (fun s => sameWKey s h))) = [] := by
    rw [List.filter_eq_nil_iff]
    intro a ha
    simp only [Bool.not_eq_true', Bool.not_eq_false]
    exact List.any_eq_true.mpr ⟨a, ha, by simp [sameWKey]⟩
  have h2 : (store.filter (fun h => !(shard.any (fun s => sameWKey s h)))).filter
      (fun h => !(shard.any (fun s => sameWKey s h))) =
      store.filter (fun h => !(shard.any (fun s => sameWKey s h))) := by
    rw [List.filter_filter]
    simp
  rw [h1, h2]
  simp

/-! ## The weather transform and the executor -/

/-- C7: every `(city, hour record)` of the raw response yields exactly
its transformed row in `process_to_df`'s output, and every output row
comes from some input hour record; the `rain`/`snow` fields of such a
row are the source's `'1h'` value when the key is present and `0.00`
when it is absent — the output field is total (never a missing marker
by construction). -/
theorem process_to_df_defaults (pyRound : Rat → Rat) (resp : List (String × List HourRec)) :
    (∀ p ∈ resp, ∀ h ∈ p.2,
      mkWRow pyRound p.1 h ∈ process_to_df pyRound resp) ∧
    (∀ r ∈ process_to_df pyRound resp, ∃ p ∈ resp, ∃ h ∈ p.2,
      r = mkWRow pyRound p.1 h ∧
      r.rain = (match h.rain with | some v => v | none => 0) ∧
      r.snow = (match h.snow with | some v => v | none => 0)) := by
  constructor
  · intro p hp h hh
    simp only [process_to_df, List.mem_flatten, List.mem_map]
    exact ⟨p.2.map (mkWRow pyRound p.1), ⟨p, hp, rfl⟩, List.mem_map.mpr ⟨h, hh, rfl⟩⟩
  · intro r hr
    simp only [process_to_df, List.mem_flatten, List.mem_map] at hr
    obtain ⟨l, ⟨p, hp, rfl⟩, hrl⟩ := hr
    obtain ⟨h, hh, rfl⟩ := List.mem_map.mp hrl
    exact ⟨p, hp, h, hh, rfl, rfl, rfl⟩

/-- C7 witness: a concrete response with one hour record carrying rain
but no snow maps to a row with the carried rain value and snow `0`. -/
theorem process_to_df_defaults_witness :
    (⟨"Leeds", [⟨100, 290, 1000, 80, 50, 3, some (6/10), none⟩]⟩ : String × List HourRec) ∈
      ([⟨"Leeds", [⟨100, 290, 1000, 80, 50, 3, some (6/10), none⟩]⟩] :
        List (String × List HourRec)) ∧
    mkWRow id "Leeds" ⟨100, 290, 1000, 80, 50, 3, some (6/10), none⟩ ∈
      process_to_df id [⟨"Leeds", [⟨100, 290, 1000, 80, 50, 3, some (6/10), none⟩]⟩] ∧
    (mkWRow id "Leeds" ⟨100, 290, 1000, 80, 50, 3, some (6/10), none⟩).rain = 6/10 ∧
    (mkWRow id "Leeds" ⟨100, 290, 1000, 80, 50, 3, some (6/10), none⟩).snow = 0 := by
  refine ⟨List.mem_singleton.mpr rfl, ?_, rfl, rfl⟩
  exact (process_to_df_defaults id _).1 _ (List.mem_singleton.mpr rfl) _ (List.mem_singleton.mpr rfl)

/-- Splitting the executor loop at an append. -/
theorem run_stages_append {S E : Type} (l1 l2 : List (S → Except (E × S) S)) (s : S) :
    run_stages (l1 ++ l2) s =
      match run_stages l1 s with
      | .ok s2 => run_stages l2 s2
      | .error es => .error es := by
  induction l1 generalizing s with
  | nil => simp [run_stages]
  | cons f rest ih =>
    simp only [List.cons_append, run_stages]
    cases f s with
    | error es => rfl
    | ok s2 => exact ih s2

/-- C8: if the stages before `f` succeed with state `s1` and `f` raises
`e` leaving state `serr`, the whole run fails with exactly `(e, serr)`:
the stages after `f` never execute (the result does not depend on
them), the failure is observable by the caller, and the state mutations
of the earlier stages are kept as-is inside `serr` (no rollback). -/
theorem run_stages_failfast {S E : Type} (pre post : List (S → Except (E × S) S))
    (f : S → Except (E × S) S) (s s1 : S) (e : E) (serr : S)
    (h1 : run_stages pre s = .ok s1) (h2 : f s1 = .error (e, serr)) :
    run_stages (pre ++ f :: post) s = .error (e, serr) ∧
    ∀ post2, run_stages (pre ++ f :: post) s = run_stages (pre ++ f :: post2) s := by
  have key : ∀ rest : List (S → Except (E × S) S),
      run_stages (pre ++ f :: rest) s = .error (e, serr) := by
    intro rest
    rw [run_stages_append, h1]
    simp [run_stages, h2]
  exact ⟨key post, fun post2 => (key post).trans (key post2).symm⟩

/-- A concrete incrementing stage for the executor witness. -/
def stageInc : Nat → Except (String × Nat) Nat := fun n => .ok (n + 1)

/-- A concrete failing stage for the executor witness. -/
def stageFail : Nat → Except (String × Nat) Nat := fun n => .error ("boom", n)

/-- A concrete doubling stage for the executor witness. -/
def stageDbl : Nat → Except (String × Nat) Nat := fun n => .ok (n * 2)

/-- C8 witness: with stages `[inc, fail, dbl]` from state `0`, the run
fails with `("boom", 1)` — the doubling stage never ran and the
increment done before the failure is retained in the error state. -/
theorem run_stages_failfast_witness :
    run_stages ([stageInc] ++ stageFail :: [stageDbl]) 0 = .error ("boom", 1) := by
  exact (run_stages_failfast [stageInc] [stageDbl] stageFail 0 1 "boom" 1 rfl rfl).1

/-! ## Hour canonicalization -/

/-- A separator character is not a digit. -/
theorem sep_not_digit (c : Char) : isSepChar c = true → c.isDigit = false := by
  intro h
  rcases Bool.or_eq_true_iff.mp h with h1 | h1
  · rw [beq_iff_eq] at h1
    subst h1
    decide
  · rw [beq_iff_eq] at h1
    subst h1
    decide

/-- C5 (amended): on every token whose string form begins with one or
two digits followed by end-of-string, a decimal point or a colon,
`clean_hours` returns those leading digits zero-padded to two characters
with `":00:00"` appended; on every other token it fails — with
`AttributeError` (from `.group(1)` on the failed `re.search`), the code
defining no `TimeParseError`. -/
theorem clean_hours_spec (s : String) :
    (specHourTokenOk s = true → clean_hours s = .ok (specHourCanon s)) ∧
    (specHourTokenOk s = false → clean_hours s = .error .attributeError) := by
  unfold clean_hours specHourTokenOk specHourCanon hourDigits
  cases hl : s.toList with
  | nil => simp
  | cons c0 rest =>
    by_cases h0 : c0.isDigit
    · cases rest with
      | nil => simp [h0, List.takeWhile_cons_of_pos, rjust2]
      | cons c1 rest2 =>
        by_cases hsep1 : isSepChar c1
        · have hd1 : c1.isDigit = false := sep_not_digit c1 hsep1
          have ht : List.takeWhile Char.isDigit (c0 :: c1 :: rest2) = [c0] := by
            simp [List.takeWhile_cons, h0, hd1]
          simp [h0, hd1, ht, rjust2, hsep1,
            show (c1 == '.' || c1 == ':') = true by simpa [isSepChar] using hsep1]
        · by_cases hd1 : c1.isDigit
          · cases rest2 with
            | nil =>
              simp [h0, hd1, List.takeWhile_cons_of_pos, rjust2,
                show (c1 == '.' || c1 == ':') = false by simpa [isSepChar] using hsep1]
            | cons c2 rest3 =>
              by_cases hsep2 : isSepChar c2
              · have hd2 : c2.isDigit = false := sep_not_digit c2 hsep2
                simp [h0, hd1, hd2, hsep2, List.takeWhile_cons_of_pos,
                  List.takeWhile_cons_of_neg, rjust2,
                  show (c1 == '.' || c1 == ':') = false by simpa [isSepChar] using hsep1,
                  show (c2 == '.' || c2 == ':') = true by simpa [isSepChar] using hsep2]
              · simp [h0, hd1, hsep2,
                  show (c1 == '.' || c1 == ':') = false by simpa [isSepChar] using hsep1,
                  show (c2 == '.' || c2 == ':') = false by simpa [isSepChar] using hsep2]
          · simp [h0, hd1, hsep1,
              show (c1 == '.' || c1 == ':') = false by simpa [isSepChar] using hsep1]
    · simp [h0]

/-- C5 counterexample: on `"abc"` the code raises `AttributeError`, not
the `TimeParseError` the documentation names (no such class exists in
the code). -/
theorem clean_hours_counterexample :
    clean_hours "abc" = .error .attributeError ∧
    clean_hours "abc" ≠ .error .timeParseError := by
  decide

/-- C5 witness: `"09:45"` satisfies the spec's token pattern and
canonicalizes to `"09:00:00"`. -/
theorem clean_hours_spec_witness :
    specHourTokenOk "09:45" = true ∧ clean_hours "09:45" = .ok "09:00:00" ∧
    specHourCanon "09:45" = "09:00:00" := by
  refine ⟨by decide, ?_, by decide⟩
  have h := (clean_hours_spec "09:45").1 (by decide)
  rw [h]
  decide

/-! ## Association-list lookups -/

/-- Lookup across an append scans the left list first. -/
theorem lookupAppend {β : Type} (k : String) (l1 l2 : List (String × β)) :
    List.lookup k (l1 ++ l2) =
      match List.lookup k l1 with
      | some v => some v
      | none => List.lookup k l2 := by
  induction l1 with
  | nil => simp [List.lookup]
  | cons a t ih =>
    by_cases hk : k == a.1
    · simp [List.lookup, hk]
    · simp only [List.cons_append, List.lookup, hk]
      exact ih

/-- A key outside the key column looks up to nothing. -/
theorem lookup_not_mem_keys {β : Type} (k : String) (l : List (String × β))
    (h : k ∉ l.map Prod.fst) : List.lookup k l = none := by
  induction l with
  | nil => rfl
  | cons a t ih =>
    simp only [List.map_cons, List.mem_cons] at h
    push_neg at h
    have hne : (k == a.1) = false := beq_eq_false_iff_ne.mpr h.1
    simp only [List.lookup, hne]
    exact ih h.2

/-! ## Column preference resolution -/

/-- The scan returns the first candidate present among the columns. -/
theorem findFirstCol_first (cols : List String) (pre post : List String) (p : String)
    (hp : p ∈ cols) (hpre : ∀ q ∈ pre, q ∉ cols) :
    findFirstCol cols (pre ++ p :: post) = some p := by
  induction pre with
  | nil => simp [findFirstCol, hp]
  | cons q t ih =>
    have hq : q ∉ cols := hpre q (List.mem_cons_self q t)
    simp only [List.cons_append, findFirstCol, if_neg hq]
    exact ih (fun q2 hq2 => hpre q2 (List.mem_cons_of_mem q hq2))

/-- C3: if `p` is the first candidate of the preference list present
among the dataframe's columns (every earlier candidate is absent), the
resolver copies exactly `p`'s cells into the new column: the result is
`df` with the new column set to `df[p]`, and (for a well-formed frame
and a fresh column name) reading the new column back gives `p`'s cells
— values of later candidates are never merged in. -/
theorem create_preferred_column_first (df : DF) (pre post : List String) (p newCol : String)
    (hp : p ∈ df.cols) (hpre : ∀ q ∈ pre, q ∉ df.cols) :
    create_preferred_column (some df) (pre ++ p :: post) newCol =
      .ok (some (df.setCol newCol (df.colCells p))) ∧
    (df.WF → newCol ∉ df.cols →
      (df.setCol newCol (df.colCells p)).colCells newCol = df.colCells p) := by
  constructor
  · simp [create_preferred_column, findFirstCol_first df.cols pre post p hp hpre]
  · intro hwf hnew
    show (DF.setCol df newCol (df.colCells p)).rows.map (fun r => cellOf r newCol) =
      df.colCells p
    unfold DF.setCol DF.colCells
    rw [List.zipWith_map_right, List.zipWith_same]
    rw [List.map_map]
    apply List.map_congr_left
    intro r hr
    show cellOf (rowSetCol df.cols r newCol (cellOf r p)) newCol = cellOf r p
    unfold rowSetCol
    rw [if_neg hnew]
    unfold cellOf
    rw [lookupAppend]
    rw [lookup_not_mem_keys newCol r (by rw [hwf r hr]; exact hnew)]
    simp [List.lookup]

/-- C3 witness: a frame with both `LocationName` and `Location` resolves
`footfall_location` from `LocationName` (the earlier candidate), at a
concrete frame. -/
theorem create_preferred_column_first_witness :
    ("LocationName" ∈ (⟨["LocationName", "Location"],
      [[("LocationName", some "Briggate"), ("Location", some "Other")]]⟩ : DF).cols) ∧
    create_preferred_column
      (some ⟨["LocationName", "Location"],
        [[("LocationName", some "Briggate"), ("Location", some "Other")]]⟩)
      ([] ++ "LocationName" :: ["Location"]) "footfall_location" =
      .ok (some ((⟨["LocationName", "Location"],
        [[("LocationName", some "Briggate"), ("Location", some "Other")]]⟩ : DF).setCol
          "footfall_location"
          ((⟨["LocationName", "Location"],
            [[("LocationName", some "Briggate"), ("Location", some "Other")]]⟩ : DF).colCells
            "LocationName"))) := by
  refine ⟨by decide, ?_⟩
  exact (create_preferred_column_first _ [] ["Location"] "LocationName" "footfall_location"
    (by decide) (by intro q hq; cases hq)).1

/-! ## Failure mode of an unresolvable schema -/

/-- Successful bind in the `Except` monad. -/
theorem exceptBind_ok {e a b : Type} (x : a) (f : a → Except e b) :
    (Except.ok x : Except e a) >>= f = f x := rfl

/-- Failing bind in the `Except` monad. -/
theorem exceptBind_error {e a b : Type} (err : e) (f : a → Except e b) :
    (Except.error err : Except e a) >>= f = .error err := rfl

/-- Identity stand-in for the datetime conversions in concrete runs. -/
def idDT : String → Except PyExc String := fun s => .ok s

/-- A concrete raw frame whose columns match no footfall candidate. -/
def dfC4 : DF := ⟨["Hour", "Date", "V"],
  [[("Hour", some "9"), ("Date", some "01/02/2021"), ("V", some "5")]]⟩

/-- C4 counterexample: on a frame matching no candidate of the footfall
preference list, `create_preferred_column` returns `False` (a non-error
value) and `clean_df` then fails with the incidental `AttributeError`
(from `list(False.columns)` in the next call) — not with
`UnresolvableSchemaError`, which the code never raises. -/
theorem clean_df_no_match_counterexample :
    create_preferred_column (some (dropUnnamedCols dfC4)) ["InCount"] "total_footfall" =
      .ok none ∧
    clean_df idDT id idDT ["InCount"] ["LocationName"] dfC4 = .error .attributeError ∧
    clean_df idDT id idDT ["InCount"] ["LocationName"] dfC4 ≠
      .error .unresolvableSchemaError := by
  decide

/-- C4 (amended): when no candidate of the footfall preference list is
present, `create_preferred_column` returns `False` and `clean_df` fails
with `AttributeError` (if the location list is nonempty — from
`list(False.columns)`) or `TypeError` (if it is empty — from
`False['Hour']`); when the footfall column resolves but no location
candidate is present, `clean_df` fails with `TypeError`.  In neither
case is an `UnresolvableSchemaError` raised. -/
theorem clean_df_no_match (toDT : String → Except PyExc String) (fmtD : String → String)
    (toDT2 : String → Except PyExc String) (fp lp : List String) (df : DF) :
    (findFirstCol (dropUnnamedCols df).cols fp = none →
      clean_df toDT fmtD toDT2 fp lp df =
        .error (if lp.isEmpty then .typeError else .attributeError)) ∧
    (∀ df1 : DF, create_preferred_column (some (dropUnnamedCols df)) fp "total_footfall" =
        .ok (some df1) →
      findFirstCol df1.cols lp = none →
      clean_df toDT fmtD toDT2 fp lp df = .error .typeError) := by
  constructor
  · intro h
    unfold clean_df
    simp only [create_preferred_column, h]
    cases lp with
    | nil => rfl
    | cons a t => rfl
  · intro df1 h1 h2
    simp only [clean_df, h1, exceptBind_ok]
    simp only [create_preferred_column, h2, exceptBind_ok]

/-- C4 witness: the amended theorem applied at the concrete frame. -/
theorem clean_df_no_match_witness :
    findFirstCol (dropUnnamedCols dfC4).cols ["InCount"] = none ∧
    clean_df idDT id idDT ["InCount"] ["LocationName"] dfC4 = .error .attributeError := by
  refine ⟨by decide, ?_⟩
  have h := (clean_df_no_match idDT id idDT ["InCount"] ["LocationName"] dfC4).1 (by decide)
  simpa using h

/-! ## The data bus is only mutated additively -/

/-- Lookup after the map-replace branch of `assocSet`. -/
theorem lookup_map_replace {β : Type} (l : List (String × β)) (k k2 : String) (v : β) :
    List.lookup k2 (l.map (fun p => if p.1 = k then (k, v) else p)) =
      if k2 = k then (List.lookup k l).map (fun _ => v) else List.lookup k2 l := by
  induction l with
  | nil => by_cases h : k2 = k <;> simp [List.lookup, h]
  | cons a t ih =>
    obtain ⟨a1, b⟩ := a
    simp only [List.map_cons]
    by_cases h1 : a1 = k
    · subst h1
      rw [show (if (a1, b).1 = a1 then (a1, v) else (a1, b)) = (a1, v) from if_pos rfl]
      by_cases h2 : k2 = a1
      · subst h2
        simp [List.lookup]
      · have hb : (k2 == a1) = false := beq_eq_false_iff_ne.mpr h2
        simp [List.lookup, hb, h2, ih]
    · rw [show (if (a1, b).1 = k then (k, v) else (a1, b)) = (a1, b) from if_neg (by simpa using h1)]
      by_cases h3 : k2 = a1
      · subst h3
        have hne : ¬k2 = k := h1
        simp [List.lookup, hne]
      · have hb : (k2 == a1) = false := beq_eq_false_iff_ne.mpr h3
        have hbk : (k == a1) = false := beq_eq_false_iff_ne.mpr (fun hh => h1 hh.symm)
        simp [List.lookup, hb, hbk, ih]

/-- Master lemma: lookup after `assocSet` — the set key now maps to the
new value and every other key is untouched. -/
theorem lookup_assocSet {β : Type} (l : List (String × β)) (k k2 : String) (v : β) :
    List.lookup k2 (assocSet l k v) = if k2 = k then some v else List.lookup k2 l := by
  unfold assocSet
  by_cases hp : (List.lookup k l).isSome
  · rw [if_pos hp, lookup_map_replace]
    by_cases h2 : k2 = k
    · obtain ⟨w, hw⟩ := Option.isSome_iff_exists.mp hp
      simp [h2, hw]
    · simp [h2]
  · rw [if_neg hp, lookupAppend]
    by_cases h2 : k2 = k
    · subst h2
      rw [Option.not_isSome_iff_eq_none.mp hp]
      simp [List.lookup]
    · have hb : (k2 == k) = false := beq_eq_false_iff_ne.mpr h2
      cases hl2 : List.lookup k2 l <;> simp [List.lookup, hb, h2]

/-- Setting one key keeps every present key present. -/
theorem busSet_preserves (b : Bus) (k v2 : String) (v : PyObj)
    (h : (List.lookup v2 b).isSome) : (List.lookup v2 (busSet b k v)).isSome := by
  rw [busSet, lookup_assocSet]
  by_cases hk : v2 = k <;> simp [hk, h]

/-- C9: the bus is only mutated additively.  For the two bus-writing
stages embedded here (`update_tablename` of the historic pipeline,
`download_data` of the footfall pipeline): whenever the stage succeeds,
every key present on the input bus is still present on the output bus.
Reading an absent key fails (with `KeyError`) and is the only way
`busGet` fails; setting a key always succeeds and overwrites. -/
theorem bus_additive :
    (∀ bus bus2 : Bus, update_tablename bus = .ok bus2 →
      ∀ k, (List.lookup k bus).isSome → (List.lookup k bus2).isSome) ∧
    (∀ (resources : List (String × FileEntry)) (readCsv : String → DF) (bus bus2 : Bus),
      download_data resources readCsv bus = .ok bus2 →
      ∀ k, (List.lookup k bus).isSome → (List.lookup k bus2).isSome) ∧
    (∀ (bus : Bus) (k : String), busGet bus k = .error .keyError ↔ List.lookup k bus = none) ∧
    (∀ (bus : Bus) (k : String) (v : PyObj), List.lookup k (busSet bus k v) = some v) := by
  refine ⟨?_, ?_, ?_, ?_⟩
  · intro bus bus2 hok k hk
    cases hd : List.lookup "date" bus with
    | none => simp [update_tablename, busGet, hd, exceptBind_error] at hok
    | some dv =>
      simp only [update_tablename, busGet, hd, exceptBind_ok] at hok
      cases dv with
      | pydate y m d =>
        cases ht : List.lookup "bq_tablename" bus with
        | none => simp [ht, exceptBind_error] at hok
        | some tv =>
          simp only [ht, exceptBind_ok] at hok
          cases tv <;> simp only [] at hok <;> try exact absurd hok (by simp)
          case str t =>
            simp only [pure, Except.pure, Except.ok.injEq] at hok
            subst hok
            exact busSet_preserves bus "bq_tablename" k _ hk
      | str s => exact absurd hok (by simp)
      | pybool b2 => exact absurd hok (by simp)
      | strList l2 => exact absurd hok (by simp)
      | dfDict d2 => exact absurd hok (by simp)
  · intro resources readCsv bus bus2 hok k hk
    cases ha : List.lookup "api_url" bus with
    | none => simp [download_data, busGet, ha, exceptBind_error] at hok
    | some av =>
      simp only [download_data, busGet, ha, exceptBind_ok] at hok
      cases av with
      | str s1 =>
        cases hd : List.lookup "download_url" bus with
        | none => simp [hd, exceptBind_error] at hok
        | some dv =>
          simp only [hd, exceptBind_ok] at hok
          cases dv with
          | str s2 =>
            cases he : List.lookup "exclude_files" bus with
            | none => simp [he, exceptBind_error] at hok
            | some ev =>
              simp only [he, exceptBind_ok] at hok
              cases ev with
              | strList ex =>
                simp only [pure, Except.pure, Except.ok.injEq] at hok
                subst hok
                exact busSet_preserves _ _ k _ (busSet_preserves _ _ k _
                  (busSet_preserves _ _ k _ hk))
              | str s3 => exact absurd hok (by simp)
              | pydate y m d => exact absurd hok (by simp)
              | pybool b2 => exact absurd hok (by simp)
              | dfDict d2 => exact absurd hok (by simp)
          | pydate y m d => exact absurd hok (by simp)
          | pybool b2 => exact absurd hok (by simp)
          | strList l2 => exact absurd hok (by simp)
          | dfDict d2 => exact absurd hok (by simp)
      | pydate y m d => exact absurd hok (by simp)
      | pybool b2 => exact absurd hok (by simp)
      | strList l2 => exact absurd hok (by simp)
      | dfDict d2 => exact absurd hok (by simp)
  · intro bus k
    unfold busGet
    cases h : List.lookup k bus <;> simp
  · intro bus k v
    rw [busSet, lookup_assocSet]
    simp

/-- A concrete bus for the additivity witness. -/
def busW : Bus := [("date", .pydate 2023 7 15), ("bq_tablename", .str "historic")]

/-- C9 witness: on a concrete bus, a successful `update_tablename` keeps
the `date` key present; `busGet` of an absent key is exactly `KeyError`;
`busSet` stores the value it was given. -/
theorem bus_additive_witness :
    (List.lookup "date"
      (busSet busW "bq_tablename" (.str ("historic" ++ "_" ++ fmtYMD 2023 7 15)))).isSome ∧
    (busGet busW "missing" = .error .keyError ↔ List.lookup "missing" busW = none) ∧
    List.lookup "x" (busSet busW "x" (.pybool true)) = some (.pybool true) := by
  refine ⟨?_, bus_additive.2.2.1 busW "missing", bus_additive.2.2.2 busW "x" (.pybool true)⟩
  exact bus_additive.1 busW _ rfl "date" (by decide)

/-! ## Full-row deduplication before the warehouse upload -/

/-- Membership is preserved by the dedup worker (given enough fuel). -/
theorem mem_pddAux {α : Type} [DecidableEq α] :
    ∀ (n : Nat) (l : List α), l.length ≤ n → ∀ x : α, (x ∈ pddAux n l ↔ x ∈ l) := by
  intro n
  induction n with
  | zero =>
    intro l hl x
    rw [Nat.le_zero, List.length_eq_zero] at hl
    subst hl
    rfl
  | succ n ih =>
    intro l hl x
    cases l with
    | nil => rfl
    | cons a rest =>
      simp only [pddAux, List.mem_cons]
      rw [ih (rest.filter (fun y => decide (y ≠ a)))
        (le_trans (List.length_filter_le _ rest) (Nat.le_of_succ_le_succ hl)) x]
      by_cases hx : x = a
      · simp [hx]
      · simp [hx, List.mem_filter]

/-- The dedup worker returns a duplicate-free list (given enough fuel). -/
theorem nodup_pddAux {α : Type} [DecidableEq α] :
    ∀ (n : Nat) (l : List α), l.length ≤ n → (pddAux n l).Nodup := by
  intro n
  induction n with
  | zero =>
    intro l hl
    rw [Nat.le_zero, List.length_eq_zero] at hl
    subst hl
    exact List.nodup_nil
  | succ n ih =>
    intro l hl
    cases l with
    | nil => exact List.nodup_nil
    | cons a rest =>
      have hlen : (rest.filter (fun y => decide (y ≠ a))).length ≤ n :=
        le_trans (List.length_filter_le _ rest) (Nat.le_of_succ_le_succ hl)
      refine List.nodup_cons.mpr ⟨?_, ih _ hlen⟩
      intro hmem
      rw [mem_pddAux n _ hlen a] at hmem
      exact (by simpa using (List.mem_filter.mp hmem).2 : a ≠ a) rfl

/-- C10: the frame uploaded by the Leeds `load_df_to_bigquery` is the
concatenation of all cleaned frames deduplicated on full-row equality
only: the upload set carries no duplicate row, it contains exactly the
rows of the concatenation, and two distinct rows sharing the
`(city, footfall_location, timestamp)` key but differing elsewhere
(e.g. in `total_footfall`) both remain — no key-level tie-break. -/
theorem leeds_upload_rows_dedup (dfs : List (String × DF)) :
    (leeds_upload_rows dfs).Nodup ∧
    (∀ r : Row, r ∈ leeds_upload_rows dfs ↔ r ∈ (dfs.map (fun p => p.2.rows)).flatten) ∧
    (∀ r1 r2 : Row, r1 ∈ (dfs.map (fun p => p.2.rows)).flatten →
      r2 ∈ (dfs.map (fun p => p.2.rows)).flatten → r1 ≠ r2 → fkey r1 = fkey r2 →
      r1 ∈ leeds_upload_rows dfs ∧ r2 ∈ leeds_upload_rows dfs) := by
  have hmem := mem_pddAux ((dfs.map (fun p => p.2.rows)).flatten).length
    ((dfs.map (fun p => p.2.rows)).flatten) le_rfl
  refine ⟨nodup_pddAux _ _ le_rfl, hmem, ?_⟩
  intro r1 r2 h1 h2 hne hkey
  exact ⟨(hmem r1).mpr h1, (hmem r2).mpr h2⟩

/-- A concrete cleaned frame with two rows sharing the composite key but
differing in `total_footfall`. -/
def dfC10 : DF := ⟨["city", "footfall_location", "timestamp", "total_footfall"],
  [[("city", some "Leeds"), ("footfall_location", some "Briggate"),
    ("timestamp", some "2021-02-01 09:00:00"), ("total_footfall", some "5")],
   [("city", some "Leeds"), ("footfall_location", some "Briggate"),
    ("timestamp", some "2021-02-01 09:00:00"), ("total_footfall", some "7")],
   [("city", some "Leeds"), ("footfall_location", some "Briggate"),
    ("timestamp", some "2021-02-01 09:00:00"), ("total_footfall", some "5")]]⟩

/-- C10 witness: at the concrete frame, both same-key rows with
different footfall counts survive the upload dedup (while the exact
duplicate collapses, by the Nodup part). -/
theorem leeds_upload_rows_dedup_witness :
    (leeds_upload_rows [("f.csv", dfC10)]).Nodup ∧
    dfC10.rows.get ⟨0, by decide⟩ ∈ leeds_upload_rows [("f.csv", dfC10)] ∧
    dfC10.rows.get ⟨1, by decide⟩ ∈ leeds_upload_rows [("f.csv", dfC10)] := by
  have h := leeds_upload_rows_dedup [("f.csv", dfC10)]
  refine ⟨h.1, ?_⟩
  have h2 := h.2.2 (dfC10.rows.get ⟨0, by decide⟩) (dfC10.rows.get ⟨1, by decide⟩)
    (by decide) (by decide) (by decide) (by decide)
  exact h2

/-! ## Row-wise reading of the cleaning pipeline -/

/-- Bind of a `pure` in the `Except` monad. -/
theorem exceptPureBind {e a b : Type} (x : a) (f : a → Except e b) :
    (pure x : Except e a) >>= f = f x := rfl

/-- `mapExcept` preserves length. -/
theorem mapExcept_length {e a b : Type} (f : a → Except e b) :
    ∀ (l : List a) (l2 : List b), mapExcept f l = .ok l2 → l2.length = l.length := by
  intro l
  induction l with
  | nil =>
    intro l2 h
    cases h
    rfl
  | cons x t ih =>
    intro l2 h
    simp only [mapExcept] at h
    cases hx : f x with
    | error e2 => rw [hx, exceptBind_error] at h; cases h
    | ok y =>
      rw [hx, exceptBind_ok] at h
      cases ht : mapExcept f t with
      | error e2 => rw [ht, exceptBind_error] at h; cases h
      | ok ys =>
        rw [ht, exceptBind_ok] at h
        cases h
        simp [ih ys ht]

/-- Every member of a `zipWith` comes from members of the two lists. -/
theorem mem_zipWith {a b c : Type} (f : a → b → c) :
    ∀ (l1 : List a) (l2 : List b), ∀ x ∈ List.zipWith f l1 l2,
      ∃ u ∈ l1, ∃ v ∈ l2, x = f u v := by
  intro l1
  induction l1 with
  | nil => intro l2 x hx; cases hx
  | cons u t ih =>
    intro l2 x hx
    cases l2 with
    | nil => cases hx
    | cons v t2 =>
      rcases List.mem_cons.mp hx with h | h
      · exact ⟨u, List.mem_cons_self u t, v, List.mem_cons_self v t2, h⟩
      · obtain ⟨u2, hu2, v2, hv2, hx2⟩ := ih t2 x h
        exact ⟨u2, List.mem_cons_of_mem u hu2, v2, List.mem_cons_of_mem v hv2, hx2⟩

/-- A successful lookup returns a stored pair. -/
theorem lookup_mem {β : Type} (k : String) :
    ∀ (l : List (String × β)) (v : β), List.lookup k l = some v → (k, v) ∈ l := by
  intro l
  induction l with
  | nil => intro v h; cases h
  | cons a t ih =>
    intro v h
    by_cases hk : k == a.1
    · simp only [List.lookup, hk] at h
      cases h
      rw [show k = a.1 from beq_iff_eq.mp hk]
      exact List.mem_cons_self _ t
    · rw [Bool.not_eq_true] at hk
      simp only [List.lookup, hk] at h
      exact List.mem_cons_of_mem a (ih v h)

/-- A key present in the key column looks up to something. -/
theorem lookup_isSome_of_mem_keys {β : Type} (k : String) :
    ∀ (l : List (String × β)), k ∈ l.map Prod.fst → (List.lookup k l).isSome := by
  intro l
  induction l with
  | nil => intro h; cases h
  | cons a t ih =>
    intro h
    simp only [List.map_cons, List.mem_cons] at h
    rcases h with h2 | h2
    · simp [List.lookup, beq_iff_eq.mpr h2]
    · by_cases hk : k == a.1
      · simp [List.lookup, hk]
      · rw [Bool.not_eq_true] at hk
        simp only [List.lookup, hk]
        exact ih h2

/-- Filtering an association list by a key predicate filters its key
column. -/
theorem map_fst_filter {β : Type} (pred : String → Bool) :
    ∀ l : List (String × β),
      (l.filter (fun p => pred p.1)).map Prod.fst = (l.map Prod.fst).filter pred := by
  intro l
  induction l with
  | nil => rfl
  | cons a t ih =>
    by_cases hp : pred a.1
    · simp [List.filter_cons, hp, ih]
    · simp only [Bool.not_eq_true] at hp
      simp [List.filter_cons, hp, ih]

/-- Overwriting a column's value keeps the key column unchanged. -/
theorem map_fst_replaceEntry (r : Row) (c : String) (v : Cell) :
    (replaceEntry r c v).map Prod.fst = r.map Prod.fst := by
  unfold replaceEntry
  rw [List.map_map]
  apply List.map_congr_left
  intro p _
  by_cases hp : p.1 = c
  · simp [hp]
  · simp [hp]

/-- The key column of a row after a per-row column assignment. -/
theorem map_fst_rowSetCol (cols : List String) (r : Row) (c : String) (v : Cell)
    (hkeys : r.map Prod.fst = cols) :
    (rowSetCol cols r c v).map Prod.fst = colsA cols c := by
  unfold rowSetCol colsA
  by_cases hc : c ∈ cols
  · rw [if_pos hc, if_pos hc, map_fst_replaceEntry, hkeys]
  · rw [if_neg hc, if_neg hc]
    simp [hkeys]

/-- `setCol` preserves well-formedness when the assigned column has one
value per row. -/
theorem setCol_WF (df : DF) (c : String) (vals : List Cell) (hwf : df.WF) :
    (df.setCol c vals).WF := by
  intro r2 hr2
  obtain ⟨u, hu, v, _, rfl⟩ := mem_zipWith _ df.rows vals r2 hr2
  exact map_fst_rowSetCol df.cols u c v (hwf u hu)

/-- `dropUnnamedCols` preserves well-formedness. -/
theorem dropUnnamedCols_WF (df : DF) (hwf : df.WF) : (dropUnnamedCols df).WF := by
  intro r2 hr2
  obtain ⟨u, hu, rfl⟩ := List.mem_map.mp hr2
  show (u.filter (fun p => keepCol p.1)).map Prod.fst = (df.cols).filter keepCol
  rw [map_fst_filter, hwf u hu]

/-- `create_preferred_column` preserves well-formedness. -/
theorem create_preferred_column_WF (df : DF) (prefCols : List String) (newCol : String)
    (df2 : DF) (hwf : df.WF)
    (hok : create_preferred_column (some df) prefCols newCol = .ok (some df2)) : df2.WF := by
  cases hf : findFirstCol df.cols prefCols with
  | none =>
    unfold create_preferred_column at hok
    simp only [hf] at hok
    simp at hok
  | some p =>
    unfold create_preferred_column at hok
    simp only [hf, Except.ok.injEq, Option.some.injEq] at hok
    exact hok ▸ setCol_WF df newCol (df.colCells p) hwf

/-- Extraction form of a successful bind in the `Except` monad. -/
theorem bind_ok_iff {e a b : Type} (x : Except e a) (f : a → Except e b) (y : b) :
    (x >>= f = .ok y) ↔ ∃ v, x = .ok v ∧ f v = .ok y := by
  cases x with
  | error err =>
    rw [exceptBind_error]
    simp
  | ok v =>
    rw [exceptBind_ok]
    constructor
    · intro h
      exact ⟨v, rfl, h⟩
    · rintro ⟨v2, hv2, h⟩
      cases hv2
      exact h

/-- A `pure` equals `ok` exactly on the same value. -/
theorem pure_ok_iff {e a : Type} (x y : a) :
    ((pure x : Except e a) = .ok y) ↔ x = y := by
  constructor
  · intro h
    cases h
    rfl
  · intro h
    rw [h]
    rfl

/-- The per-row reading of `transform_block` in column context `cols`:
clean the hour cell, parse the date cell, build the timestamp cell from
the two, add the city cell. -/
def cleanRow (toDT : String → Except PyExc String) (fmtD : String → String)
    (toDT2 : String → Except PyExc String) (cols : List String) (r : Row) :
    Except PyExc Row := do
  let hv ← clean_hours (strOfCell (cellOf r "Hour"))
  let r1 := rowSetCol cols r "Hour" (some hv)
  let dv ← liftCell toDT (cellOf r1 "Date")
  let r2 := rowSetCol (colsA cols "Hour") r1 "Date" dv
  let tv ← liftCell toDT2 (match cellOf r2 "Date", cellOf r2 "Hour" with
    | some d, some h => some (fmtD d ++ " " ++ h)
    | _, _ => (none : Cell))
  let r3 := rowSetCol (colsA (colsA cols "Hour") "Date") r2 "timestamp" tv
  pure (rowSetCol (colsA (colsA (colsA cols "Hour") "Date") "timestamp") r3 "city" (some "Leeds"))

/-- Column list after the four column assignments of `transform_block`. -/
def colsFinal (cols : List String) : List String :=
  colsA (colsA (colsA (colsA cols "Hour") "Date") "timestamp") "city"

/-- A successful `transform_block` is exactly the row-by-row cleaning:
the result's columns are the input columns extended with the four
assigned ones, and its rows are the `cleanRow` images of the input rows,
in order. -/
theorem transform_block_rowwise (toDT : String → Except PyExc String) (fmtD : String → String)
    (toDT2 : String → Except PyExc String) (cols : List String) :
    ∀ (rows : List Row) (df7 : DF),
      transform_block toDT fmtD toDT2 ⟨cols, rows⟩ = .ok df7 →
      df7.cols = colsFinal cols ∧
      mapExcept (cleanRow toDT fmtD toDT2 cols) rows = .ok df7.rows := by
  intro rows
  induction rows with
  | nil =>
    intro df7 hok
    have heq : transform_block toDT fmtD toDT2 ⟨cols, []⟩ =
        (if "Date" ∈ colsA cols "Hour" then Except.ok (⟨colsFinal cols, []⟩ : DF)
         else Except.error PyExc.keyError) := rfl
    rw [heq] at hok
    split at hok
    · cases hok
      exact ⟨rfl, rfl⟩
    · cases hok
  | cons r rest ih =>
    intro df7 hok
    unfold transform_block at hok
    simp only [mapExcept] at hok
    rw [bind_ok_iff] at hok
    obtain ⟨vs, h1, hok⟩ := hok
    rw [bind_ok_iff] at h1
    obtain ⟨y, h2, h3⟩ := h1
    rw [bind_ok_iff] at h2
    obtain ⟨hv, hhv, h4⟩ := h2
    rw [pure_ok_iff] at h4
    subst h4
    rw [bind_ok_iff] at h3
    obtain ⟨hvs, hrest, h5⟩ := h3
    rw [pure_ok_iff] at h5
    subst h5
    simp only [DF.setCol, List.zipWith_cons_cons] at hok
    split at hok
    case isFalse => cases hok
    case isTrue hDate =>
      rw [bind_ok_iff] at hok
      obtain ⟨dvs0, h6, hok⟩ := hok
      simp only [mapExcept] at h6
      rw [bind_ok_iff] at h6
      obtain ⟨dv, hdv, h7⟩ := h6
      rw [bind_ok_iff] at h7
      obtain ⟨dvs, hdvs, h8⟩ := h7
      rw [pure_ok_iff] at h8
      subst h8
      simp only [DF.setCol, List.zipWith_cons_cons, List.map_cons] at hok
      rw [bind_ok_iff] at hok
      obtain ⟨tvs0, h9, hok⟩ := hok
      simp only [mapExcept] at h9
      rw [bind_ok_iff] at h9
      obtain ⟨tv, htv, h10⟩ := h9
      rw [bind_ok_iff] at h10
      obtain ⟨tvs, htvs, h11⟩ := h10
      rw [pure_ok_iff] at h11
      subst h11
      simp only [DF.setCol, List.zipWith_cons_cons, List.map_cons] at hok
      rw [pure_ok_iff] at hok
      subst hok
      -- the rest of the rows go through the block on their own
      have hrb : transform_block toDT fmtD toDT2 ⟨cols, rest⟩ =
          .ok ⟨colsFinal cols,
            List.zipWith
              (fun u v => rowSetCol (colsA (colsA (colsA cols "Hour") "Date") "timestamp") u "city" v)
              (List.zipWith
                (fun u v => rowSetCol (colsA (colsA cols "Hour") "Date") u "timestamp" v)
                (List.zipWith (fun u v => rowSetCol (colsA cols "Hour") u "Date" v)
                  (List.zipWith (fun u v => rowSetCol cols u "Hour" v) rest hvs) dvs)
                tvs)
              ((List.zipWith
                (fun u v => rowSetCol (colsA (colsA cols "Hour") "Date") u "timestamp" v)
                (List.zipWith (fun u v => rowSetCol (colsA cols "Hour") u "Date" v)
                  (List.zipWith (fun u v => rowSetCol cols u "Hour" v) rest hvs) dvs)
                tvs).map (fun _ => (some "Leeds" : Cell)))⟩ := by
        unfold transform_block
        rw [hrest, exceptBind_ok]
        simp only [DF.setCol]
        rw [if_pos hDate]
        rw [hdvs, exceptBind_ok]
        rw [htvs, exceptBind_ok]
        rfl
      obtain ⟨ihcols, ihrows⟩ := ih _ hrb
      constructor
      · rfl
      · have hhead : cleanRow toDT fmtD toDT2 cols r =
            .ok (rowSetCol (colsA (colsA (colsA cols "Hour") "Date") "timestamp")
              (rowSetCol (colsA (colsA cols "Hour") "Date")
                (rowSetCol (colsA cols "Hour") (rowSetCol cols r "Hour" (some hv)) "Date" dv)
                "timestamp" tv)
              "city" (some "Leeds")) := by
          simp only [cleanRow, hhv, exceptBind_ok]
          rw [hdv, exceptBind_ok, htv, exceptBind_ok]
          rfl
        simp only [mapExcept]
        rw [hhead, exceptBind_ok, ihrows, exceptBind_ok, pure_ok_iff]

/-- Filtering out other keys does not change a kept key's lookup. -/
theorem lookup_filter_keep {β : Type} (k : String) (pred : String → Bool) (hk : pred k = true) :
    ∀ l : List (String × β),
      List.lookup k (l.filter (fun p => pred p.1)) = List.lookup k l := by
  intro l
  induction l with
  | nil => rfl
  | cons a t ih =>
    by_cases hka : k == a.1
    · have hpa : pred a.1 = true := by rw [← beq_iff_eq.mp hka]; exact hk
      simp [List.filter_cons, hpa, List.lookup, hka]
    · rw [Bool.not_eq_true] at hka
      by_cases hpa : pred a.1
      · simp [List.filter_cons, hpa, List.lookup, hka, ih]
      · simp only [Bool.not_eq_true] at hpa
        simp [List.filter_cons, hpa, List.lookup, hka, ih]

/-- Assigning one column leaves every other column's cell unchanged. -/
theorem cellOf_rowSetCol_ne (cols : List String) (r : Row) (c : String) (v : Cell) (k : String)
    (hne : k ≠ c) : cellOf (rowSetCol cols r c v) k = cellOf r k := by
  unfold rowSetCol cellOf
  by_cases hc : c ∈ cols
  · rw [if_pos hc]
    unfold replaceEntry
    rw [lookup_map_replace, if_neg hne]
  · rw [if_neg hc, lookupAppend]
    cases h : List.lookup k r with
    | some v2 => rfl
    | none => simp [List.lookup, beq_eq_false_iff_ne.mpr hne]

/-- Every output element of `mapExcept` is the image of an input. -/
theorem mapExcept_mem {e a b : Type} (f : a → Except e b) :
    ∀ (l : List a) (l2 : List b), mapExcept f l = .ok l2 →
      ∀ y ∈ l2, ∃ x ∈ l, f x = .ok y := by
  intro l
  induction l with
  | nil =>
    intro l2 h y hy
    cases h
    cases hy
  | cons x t ih =>
    intro l2 h y hy
    simp only [mapExcept] at h
    rw [bind_ok_iff] at h
    obtain ⟨v, hv, h⟩ := h
    rw [bind_ok_iff] at h
    obtain ⟨vs, hvs, h⟩ := h
    rw [pure_ok_iff] at h
    subst h
    rcases List.mem_cons.mp hy with h2 | h2
    · exact ⟨x, List.mem_cons_self x t, h2 ▸ hv⟩
    · obtain ⟨x2, hx2, hfx2⟩ := ih vs hvs y h2
      exact ⟨x2, List.mem_cons_of_mem x hx2, hfx2⟩

/-- The key column of a successfully cleaned row. -/
theorem cleanRow_keys (toDT : String → Except PyExc String) (fmtD : String → String)
    (toDT2 : String → Except PyExc String) (cols : List String) (r r4 : Row)
    (hk : r.map Prod.fst = cols) (hok : cleanRow toDT fmtD toDT2 cols r = .ok r4) :
    r4.map Prod.fst = colsFinal cols := by
  simp only [cleanRow] at hok
  rw [bind_ok_iff] at hok
  obtain ⟨hv, _, hok⟩ := hok
  rw [bind_ok_iff] at hok
  obtain ⟨dv, _, hok⟩ := hok
  rw [bind_ok_iff] at hok
  obtain ⟨tv, _, hok⟩ := hok
  rw [pure_ok_iff] at hok
  subst hok
  have k1 := map_fst_rowSetCol cols r "Hour" (some hv) hk
  have k2 := map_fst_rowSetCol _ _ "Date" dv k1
  have k3 := map_fst_rowSetCol _ _ "timestamp" tv k2
  exact map_fst_rowSetCol _ _ "city" (some "Leeds") k3

/-- The set column belongs to the new column list. -/
theorem mem_colsA_self (cols : List String) (c : String) : c ∈ colsA cols c := by
  by_cases h : c ∈ cols <;> simp [colsA, h]

/-- Old columns persist in the new column list. -/
theorem mem_colsA_of (cols : List String) (c d : String) (h : d ∈ cols) : d ∈ colsA cols c := by
  by_cases hc : c ∈ cols <;> simp [colsA, hc, h]

/-- Shape of a successful column resolution: the chosen source column,
the extended column list, and the rows with the copied cells. -/
theorem create_preferred_column_shape (df : DF) (prefCols : List String) (newCol : String)
    (df2 : DF)
    (hok : create_preferred_column (some df) prefCols newCol = .ok (some df2)) :
    ∃ p, findFirstCol df.cols prefCols = some p ∧
      df2.cols = colsA df.cols newCol ∧
      df2.rows = df.rows.map (fun r => rowSetCol df.cols r newCol (cellOf r p)) := by
  cases hf : findFirstCol df.cols prefCols with
  | none =>
    unfold create_preferred_column at hok
    simp only [hf] at hok
    simp at hok
  | some p =>
    unfold create_preferred_column at hok
    simp only [hf, Except.ok.injEq, Option.some.injEq] at hok
    refine ⟨p, rfl, ?_, ?_⟩
    · rw [← hok]
      rfl
    · rw [← hok]
      show List.zipWith _ df.rows (df.rows.map _) = _
      rw [List.zipWith_map_right, List.zipWith_same]

/-- Length of a filter over a map, by the composed predicate. -/
theorem length_filter_map {a b : Type} (f : a → b) (p : b → Bool) (l : List a) :
    (List.filter p (l.map f)).length = (l.filter (fun x => p (f x))).length := by
  rw [List.filter_map]
  rw [List.length_map]
  rfl

/-- C6: row dropping in `clean_df`.  On every successful run from a
well-formed raw frame: (a) the output contains no missing cell at all —
in particular no missing temporal or required canonical field; (b) the
output has at most one row per raw row with a present `Hour` cell, so
every raw row whose `Hour` is missing has been dropped (without error);
and (c) the output rows are exactly the per-row cleaning images of the
`Hour`-carrying rows that came out complete, each restricted to the four
canonical columns — so complete rows are retained and incomplete ones
are dropped (without error), nothing else. -/
theorem clean_df_row_dropping (toDT : String → Except PyExc String) (fmtD : String → String)
    (toDT2 : String → Except PyExc String) (fp lp : List String) (df out : DF)
    (hwf : df.WF) (hok : clean_df toDT fmtD toDT2 fp lp df = .ok out) :
    (∀ r2 ∈ out.rows, ∀ q ∈ r2, (Prod.snd q).isSome = true) ∧
    out.rows.length ≤ (df.rows.filter (fun r => (cellOf r "Hour").isSome)).length ∧
    (∃ df1? df2 rows7,
      create_preferred_column (some (dropUnnamedCols df)) fp "total_footfall" = .ok df1? ∧
      create_preferred_column df1? lp "footfall_location" = .ok (some df2) ∧
      mapExcept (cleanRow toDT fmtD toDT2 df2.cols) (df2.rows.filter hourPresent) = .ok rows7 ∧
      out.rows = (rows7.filter rowComplete).map
        (fun r => ["city", "footfall_location", "timestamp", "total_footfall"].map
          (fun c => (c, cellOf r c)))) := by
  unfold clean_df at hok
  rw [bind_ok_iff] at hok
  obtain ⟨odf1, hcpc1, hok⟩ := hok
  rw [bind_ok_iff] at hok
  obtain ⟨odf2, hcpc2, hok⟩ := hok
  cases odf2 with
  | none => simp at hok
  | some df2 =>
    have hok2 : (if "Hour" ∈ df2.cols then
        ((transform_block toDT fmtD toDT2 ⟨df2.cols, List.filter hourPresent df2.rows⟩) >>=
          fun df7 => pure (selectCols ⟨df7.cols, List.filter rowComplete df7.rows⟩
            ["city", "footfall_location", "timestamp", "total_footfall"]))
      else Except.error PyExc.keyError) = Except.ok out := hok
    clear hok
    by_cases hHour : "Hour" ∈ df2.cols
    case neg =>
      rw [if_neg hHour] at hok2
      simp at hok2
    case pos =>
      rw [if_pos hHour] at hok2
      rw [bind_ok_iff] at hok2
      obtain ⟨df7, hblk, hok2⟩ := hok2
      rw [pure_ok_iff] at hok2
      subst hok2
      obtain ⟨hcols7, hrows7⟩ :=
        transform_block_rowwise toDT fmtD toDT2 df2.cols (df2.rows.filter hourPresent) df7 hblk
      cases odf1 with
      | none =>
        exfalso
        unfold create_preferred_column at hcpc2
        split at hcpc2
        · split at hcpc2 <;> simp at hcpc2
        · simp_all
      | some df1 =>
        obtain ⟨p1, hp1, hcols1, hrows1⟩ :=
          create_preferred_column_shape (dropUnnamedCols df) fp "total_footfall" df1 hcpc1
        obtain ⟨pv2, hp2, hcols2, hrows2⟩ :=
          create_preferred_column_shape df1 lp "footfall_location" df2 hcpc2
        have hwf0 : (dropUnnamedCols df).WF := dropUnnamedCols_WF df hwf
        have hwf1 : df1.WF := create_preferred_column_WF _ fp _ df1 hwf0 hcpc1
        have hwf2 : df2.WF := create_preferred_column_WF _ lp _ df2 hwf1 hcpc2
        have hfin : ∀ c ∈ (["city", "footfall_location", "timestamp",
            "total_footfall"] : List String), c ∈ colsFinal df2.cols := by
          intro c hc
          have hmct : "total_footfall" ∈ df2.cols := by
            rw [hcols2]
            exact mem_colsA_of _ _ _ (by rw [hcols1]; exact mem_colsA_self _ _)
          have hmcf : "footfall_location" ∈ df2.cols := by
            rw [hcols2]
            exact mem_colsA_self _ _
          simp only [List.mem_cons, List.not_mem_nil, or_false] at hc
          unfold colsFinal
          rcases hc with rfl | rfl | rfl | rfl
          · exact mem_colsA_self _ _
          · exact mem_colsA_of _ _ _ (mem_colsA_of _ _ _ (mem_colsA_of _ _ _
              (mem_colsA_of _ _ _ hmcf)))
          · exact mem_colsA_of _ _ _ (mem_colsA_self _ _)
          · exact mem_colsA_of _ _ _ (mem_colsA_of _ _ _ (mem_colsA_of _ _ _
              (mem_colsA_of _ _ _ hmct)))
        refine ⟨?_, ?_, some df1, df2, df7.rows, hcpc1, hcpc2, hrows7, rfl⟩
        · intro r2 hr2 q hq
          simp only [selectCols] at hr2
          obtain ⟨r, hr, rfl⟩ := List.mem_map.mp hr2
          obtain ⟨c, hc, rfl⟩ := List.mem_map.mp hq
          have hrc := List.mem_filter.mp hr
          obtain ⟨r0, hr0, hcr⟩ := mapExcept_mem _ _ _ hrows7 r hrc.1
          have hr0keys : r0.map Prod.fst = df2.cols := hwf2 r0 (List.mem_filter.mp hr0).1
          have hrkeys : r.map Prod.fst = colsFinal df2.cols :=
            cleanRow_keys _ _ _ _ r0 r hr0keys hcr
          have hor : c ∈ r.map Prod.fst := by rw [hrkeys]; exact hfin c hc
          obtain ⟨v, hv⟩ := Option.isSome_iff_exists.mp (lookup_isSome_of_mem_keys c r hor)
          have hmemv := lookup_mem c r v hv
          have hvs := List.all_eq_true.mp hrc.2 (c, v) hmemv
          show (cellOf r c).isSome = true
          rw [cellOf, hv]
          exact hvs
        · have hlen7 : df7.rows.length = (df2.rows.filter hourPresent).length :=
            mapExcept_length _ _ _ hrows7
          have hpres : (df2.rows.filter hourPresent).length =
              (df.rows.filter (fun r => (cellOf r "Hour").isSome)).length := by
            rw [hrows2, hrows1]
            rw [show (dropUnnamedCols df).rows =
              df.rows.map (fun r => r.filter (fun p => keepCol p.1)) from rfl]
            rw [length_filter_map, length_filter_map, length_filter_map]
            congr 1
            apply List.filter_congr
            intro r _
            show hourPresent _ = (cellOf r "Hour").isSome
            unfold hourPresent
            rw [cellOf_rowSetCol_ne _ _ _ _ _ (by decide)]
            rw [cellOf_rowSetCol_ne _ _ _ _ _ (by decide)]
            show (cellOf (r.filter (fun p => keepCol p.1)) "Hour").isSome = _
            unfold cellOf
            rw [lookup_filter_keep "Hour" keepCol (by decide) r]
          calc (selectCols ⟨df7.cols, df7.rows.filter rowComplete⟩
              ["city", "footfall_location", "timestamp", "total_footfall"]).rows.length
              = (df7.rows.filter rowComplete).length := by
                simp [selectCols]
            _ ≤ df7.rows.length := List.length_filter_le _ _
            _ = _ := by rw [hlen7, hpres]

/-- A concrete raw frame for the row-dropping witness: one hourly row
and one aggregate row with a missing `Hour`. -/
def dfC6 : DF := ⟨["LocationName", "Hour", "Date", "InCount"],
  [[("LocationName", some "Briggate"), ("Hour", some "9"), ("Date", some "01/02/2021"),
    ("InCount", some "5")],
   [("LocationName", some "Briggate"), ("Hour", none), ("Date", some "01/02/2021"),
    ("InCount", some "7")]]⟩

/-- C6 witness: at the concrete frame the clean succeeds, the output has
no missing cell, and the aggregate row was dropped. -/
theorem clean_df_row_dropping_witness :
    DF.WF dfC6 ∧
    ∃ out, clean_df idDT id idDT ["InCount"] ["LocationName"] dfC6 = .ok out ∧
      (∀ r2 ∈ out.rows, ∀ q ∈ r2, (Prod.snd q).isSome = true) ∧
      out.rows.length ≤ (dfC6.rows.filter (fun r => (cellOf r "Hour").isSome)).length := by
  refine ⟨by decide, _, rfl, ?_, ?_⟩
  · exact (clean_df_row_dropping idDT id idDT ["InCount"] ["LocationName"] dfC6 _
      (by decide) rfl).1
  · exact (clean_df_row_dropping idDT id idDT ["InCount"] ["LocationName"] dfC6 _
      (by decide) rfl).2.1
